import Mathlib

/-!
Shallow embedding of the report-participation data model of `src/src/models.py`
and of the row-level operations exercised by `src/src/utils.py` and
`src/test/test_models.py`.

Tables are embedded as lists of row structures; the table constraints declared
in `__table_args__` become decidable predicates over those lists; a transaction
commit becomes a function that either returns the fully updated state or an
error together with the unchanged prior state (rollback in full).
-/

/-- The `Role` enumeration (models.py lines 37-43): closed set of role tags. -/
inductive Role where
  | creator
  | reporter
  | observer
deriving DecidableEq, Repr

/-- Canonical string form of each enumeration member; in the source the member
names coincide with their string values. -/
def Role.value : Role → String
  | .creator => "creator"
  | .reporter => "reporter"
  | .observer => "observer"

/-- Lookup of a raw string against the enumeration, as performed by
`Enum(Role, validate_strings=True)` before a string-valued role is bound:
only an exact, case-sensitive match on the canonical string form succeeds. -/
def roleFromString (s : String) : Option Role :=
  if s = "creator" then some .creator
  else if s = "reporter" then some .reporter
  else if s = "observer" then some .observer
  else none

/-- The exception kinds raised by the embedded code paths: `AttributeError` by
the `report_id` property setter, `ValueError` by `validate_user_id`,
`LookupError` by the string-validating enumeration type, and the storage
engine's `IntegrityError` for constraint violations at commit. -/
inductive PyError where
  | attributeError (msg : String)
  | valueError (msg : String)
  | lookupError (msg : String)
  | integrityError (msg : String)
deriving DecidableEq, Repr

/-- Modelled from the spec: the error taxonomy of spec section 7, which is not a
class hierarchy in the code. It classifies a raised error as a ValidationError
(an input fails a domain rule before any write is attempted), an IntegrityError
(a write would violate a storage-level invariant), or a programming error
(spec P3 calls the immutable-field reassignment a programming error). -/
inductive ErrClass where
  | validation
  | integrity
  | programming
deriving DecidableEq, Repr

/-- Modelled from the spec: assignment of the taxonomy class to each concrete
error kind. `ValueError` and `LookupError` are raised on input validation
before any write; `IntegrityError` is raised by the storage engine;
`AttributeError` is raised by a plain property setter in memory. -/
def errClass : PyError → ErrClass
  | .valueError _ => .validation
  | .lookupError _ => .validation
  | .attributeError _ => .programming
  | .integrityError _ => .integrity

/-- One row of the `user` table (class `User`). -/
structure UserRow where
  id : Nat
  name : String
deriving DecidableEq, Repr

/-- One row of the `report` table (class `Report`). -/
structure ReportRow where
  id : Nat
  species : String
deriving DecidableEq, Repr

/-- One row of the `report_participant` table (class `ReportParticipant`).
`ReportParticipantRegistered` maps onto the same table (its `__tablename__` is
None, single-table inheritance), so its `user_id` column lives here and is
declared `nullable=True`; rows of the unregistered variant leave it NULL.
`is_registered` is the polymorphic discriminator. -/
structure ParticipantRow where
  id : Nat
  report_id : Nat
  is_registered : Bool
  user_id : Option Nat
deriving DecidableEq, Repr

/-- One row of the joined-inheritance table `report_participant_unregistered`
(class `ReportParticipantUnregistered`): the stored name, keyed by the
participant id. -/
structure UnregisteredRow where
  id : Nat
  name : String
deriving DecidableEq, Repr

/-- One row of the `report_participant_role` table (class
`ReportParticipantRole`): a role tag plus the redundant report reference and
the participant reference used by the composite foreign key. -/
structure RoleRow where
  role : Role
  report_id : Nat
  participant_id : Nat
deriving DecidableEq, Repr

/-- The persisted state: one list of rows per table. -/
structure DBState where
  users : List UserRow
  reports : List ReportRow
  participants : List ParticipantRow
  unregistered : List UnregisteredRow
  roleAssignments : List RoleRow
deriving DecidableEq, Repr

/-- The key of `pk_unique_report_role_combination`, the
`PrimaryKeyConstraint(role, report_id)` on `report_participant_role`. -/
def roleKey (r : RoleRow) : Role × Nat :=
  (r.role, r.report_id)

/-- `pk_unique_report_role_combination` holds of the role table: the
(role, report_id) pairs are pairwise distinct. -/
def rolePKok (rows : List RoleRow) : Bool :=
  decide (rows.map roleKey).Nodup

/-- Does some row of the role table already carry this (role, report_id) key? -/
def hasRoleKey (ro : Role) (rid : Nat) (rows : List RoleRow) : Bool :=
  rows.any fun r => decide (r.role = ro) && decide (r.report_id = rid)

/-- One row satisfies `fk_report_participant_composite_reference`: its
(report_id, participant_id) pair references the (report_id, id) pair of some
participant row. -/
def roleFKrow (parts : List ParticipantRow) (r : RoleRow) : Bool :=
  parts.any fun p => decide (p.id = r.participant_id) && decide (p.report_id = r.report_id)

/-- `fk_report_participant_composite_reference` holds of the whole role table. -/
def roleFKok (parts : List ParticipantRow) (rows : List RoleRow) : Bool :=
  rows.all (roleFKrow parts)

/-- The `ForeignKey(Report.id)` on `report_participant.report_id`. -/
def participantFKok (reports : List ReportRow) (parts : List ParticipantRow) : Bool :=
  parts.all fun p => reports.any fun rp => decide (rp.id = p.report_id)

/-- The `ForeignKey(User.id)` on the nullable `user_id` column: checked only
when the column is non-null. -/
def userFKok (users : List UserRow) (parts : List ParticipantRow) : Bool :=
  parts.all fun p =>
    match p.user_id with
    | none => true
    | some uid => users.any fun u => decide (u.id = uid)

/-- Primary-key uniqueness of a surrogate id column. -/
def idsNodup (ids : List Nat) : Bool :=
  decide ids.Nodup

/-- The observable state after a repository call: the session rolls the
transaction back in full when commit raises, so a failed call leaves the
caller with the prior state. -/
def applyTx (st : DBState) (r : Except PyError DBState) : DBState :=
  match r with
  | .ok st2 => st2
  | .error _ => st

/-- Commit of a batch of new role-assignment rows: the storage engine checks
the primary-key and composite foreign-key constraints of
`report_participant_role`; on violation it raises `IntegrityError` and
persists none of the batch. -/
def insertRoleAssignments (st : DBState) (new : List RoleRow) : Except PyError DBState :=
  if !rolePKok (st.roleAssignments ++ new) then
    .error (.integrityError "duplicate key value violates unique constraint pk_unique_report_role_combination")
  else if !roleFKok st.participants (st.roleAssignments ++ new) then
    .error (.integrityError "insert violates foreign key constraint fk_report_participant_composite_reference")
  else
    .ok { st with roleAssignments := st.roleAssignments ++ new }

/-- Lookup of a report row by id. -/
def findReport (st : DBState) (i : Nat) : Option ReportRow :=
  st.reports.find? fun rp => decide (rp.id = i)

/-- Lookup of a participant row by id. -/
def findParticipant (st : DBState) (i : Nat) : Option ParticipantRow :=
  st.participants.find? fun p => decide (p.id = i)

/-- Lookup of a role-assignment row by its primary key (role, report_id). -/
def findRoleAssignment (st : DBState) (ro : Role) (rid : Nat) : Option RoleRow :=
  st.roleAssignments.find? fun r => decide (r.role = ro) && decide (r.report_id = rid)

/-- Commit of one new `report_participant` row: the storage engine checks the
surrogate primary key, the report foreign key and the (nullable) user foreign
key; on violation it raises `IntegrityError` and persists nothing. -/
def insertParticipantRow (st : DBState) (p : ParticipantRow) : Except PyError DBState :=
  let parts := st.participants ++ [p]
  if !idsNodup (parts.map (·.id)) then
    .error (.integrityError "duplicate key value violates unique constraint report_participant_pkey")
  else if !participantFKok st.reports parts then
    .error (.integrityError "insert violates foreign key constraint report_participant_report_id_fkey")
  else if !userFKok st.users parts then
    .error (.integrityError "insert violates foreign key constraint report_participant_user_id_fkey")
  else
    .ok { st with participants := parts }

/-- The multi-row creation performed by `create_participant`
(src/src/utils.py lines 85-97): the new participant rows and their
role-assignment rows are added to one session and committed together; commit
checks every table constraint over the batch and rolls back wholly on a
violation. Here the batch is one participant row carrying one role-assignment
row per requested role, the shape of spec scenarios 1, 2 and 4. -/
def create_participant (st : DBState) (p : ParticipantRow) (roles : List Role) :
    Except PyError DBState :=
  let parts := st.participants ++ [p]
  let rows := st.roleAssignments ++ roles.map fun r => RoleRow.mk r p.report_id p.id
  if !idsNodup (parts.map (·.id)) then
    .error (.integrityError "duplicate key value violates unique constraint report_participant_pkey")
  else if !participantFKok st.reports parts then
    .error (.integrityError "insert violates foreign key constraint report_participant_report_id_fkey")
  else if !userFKok st.users parts then
    .error (.integrityError "insert violates foreign key constraint report_participant_user_id_fkey")
  else if !rolePKok rows then
    .error (.integrityError "duplicate key value violates unique constraint pk_unique_report_role_combination")
  else if !roleFKok parts rows then
    .error (.integrityError "insert violates foreign key constraint fk_report_participant_composite_reference")
  else
    .ok { st with participants := parts, roleAssignments := rows }

/-- Cascade delete of a report (relationship `Report.participants` with
cascade all, delete-orphan, and `ReportParticipant.role_associations` with
cascade all, delete-orphan): the report row goes, every participant row of the
report goes, each such participant's joined `report_participant_unregistered`
row goes, and every role-assignment row referencing a deleted participant
through the composite foreign key goes. Deleting never raises. -/
def delete_report (st : DBState) (rid : Nat) : DBState :=
  { st with
    reports := st.reports.filter fun rp => !decide (rp.id = rid)
    participants := st.participants.filter fun p => !decide (p.report_id = rid)
    unregistered := st.unregistered.filter fun u =>
      !(st.participants.any fun p => decide (p.id = u.id) && decide (p.report_id = rid))
    roleAssignments := st.roleAssignments.filter fun r =>
      !(st.participants.any fun p =>
        decide (p.report_id = rid) && decide (p.id = r.participant_id) &&
          decide (p.report_id = r.report_id)) }

/-- The in-memory attribute state of a `ReportParticipant` object that the
`report_id` property (models.py lines 114-124) reads and writes: the private
column attribute `_report_id`, which is None until first assigned, plus the
roles attached through the association proxy. -/
structure ParticipantObj where
  reportIdAttr : Option Nat
  roles : List Role
deriving DecidableEq, Repr

/-- The `report_id` property setter (models.py lines 118-124): when
`_report_id` is already set it raises `AttributeError` and assigns nothing;
otherwise it records the value. -/
def setReportId (p : ParticipantObj) (value : Nat) : Except PyError ParticipantObj :=
  match p.reportIdAttr with
  | some _ =>
    .error (.attributeError "The report_id associated with a participant cannot be changed once set.")
  | none => .ok { p with reportIdAttr := some value }

/-- The object a failed setter call leaves behind: the exception propagates
and the attribute keeps its prior value. -/
def applySet (p : ParticipantObj) (r : Except PyError ParticipantObj) : ParticipantObj :=
  match r with
  | .ok p2 => p2
  | .error _ => p

/-- `validate_user_id` (models.py lines 154-158): runs on each assignment to
`user_id`; raises `ValueError` when the assigned value is None, otherwise
returns the value unchanged. -/
def validate_user_id (value : Option Nat) : Except PyError (Option Nat) :=
  match value with
  | none => .error (.valueError "User ID cannot be None")
  | some v => .ok (some v)

/-- Creating a `ReportParticipantRegistered` row. When the caller assigns a
user reference (`userAssignment = some v`), the assignment runs through
`validate_user_id` first; when the caller never assigns one
(`userAssignment = none`), the validator does not fire and the nullable
`user_id` column keeps NULL in the committed row. -/
def createRegistered (st : DBState) (pid rid : Nat) (userAssignment : Option (Option Nat)) :
    Except PyError DBState :=
  match userAssignment with
  | none => insertParticipantRow st (ParticipantRow.mk pid rid true none)
  | some v =>
    match validate_user_id v with
    | .error e => .error e
    | .ok v2 => insertParticipantRow st (ParticipantRow.mk pid rid true v2)

/-- `ReportParticipantRegistered.name` (models.py lines 160-162): a property
returning `self.user.name`, a lookup of the referenced `User` row at read
time; nothing is stored on the participant row. -/
def registeredName (users : List UserRow) (p : ParticipantRow) : Option String :=
  match p.user_id with
  | none => none
  | some uid => (users.find? fun u => decide (u.id = uid)).map (·.name)

/-- `ReportParticipantUnregistered.name` (models.py line 129): a stored column
on the row itself. -/
def unregisteredName (u : UnregisteredRow) : String :=
  u.name

/-- An UPDATE of `user.name` for the given user id. -/
def updateUserName (users : List UserRow) (uid : Nat) (newName : String) : List UserRow :=
  users.map fun u => if u.id = uid then { u with name := newName } else u

/-- Assigning a raw string as a role: `Enum(Role, validate_strings=True)`
(models.py line 169) looks the string up in the enumeration before binding;
a string outside the closed set raises `LookupError` carrying the raw value,
before any write is attempted. -/
def bindRoleString (s : String) : Except PyError Role :=
  match roleFromString s with
  | some r => .ok r
  | none => .error (.lookupError (s ++ " is not among the defined enum values"))

/-- Assigning a raw string as a role on a participant: the string is validated
first; only on success is a role-assignment row built and committed. -/
def insertRoleFromString (st : DBState) (s : String) (rid pid : Nat) : Except PyError DBState :=
  match bindRoleString s with
  | .error e => .error e
  | .ok r => insertRoleAssignments st [RoleRow.mk r rid pid]

/-- Per-participant role uniqueness, the weaker scope alternative the spec
words in section 8: no participant holds the same role value twice, i.e. the
(role, participant_id) pairs are pairwise distinct. Stated for comparison
with `rolePKok`, the scope the schema actually declares. -/
def perParticipantUnique (rows : List RoleRow) : Bool :=
  decide (rows.map fun r => (r.role, r.participant_id)).Nodup

/-! Lemmas connecting the Bool-valued constraint checkers to their
propositional form. -/

theorem rolePKok_iff (rows : List RoleRow) :
    rolePKok rows = true ↔ (rows.map roleKey).Nodup := by
  simp [rolePKok]

theorem hasRoleKey_iff (ro : Role) (rid : Nat) (rows : List RoleRow) :
    hasRoleKey ro rid rows = true ↔ (ro, rid) ∈ rows.map roleKey := by
  simp only [hasRoleKey, List.any_eq_true, List.mem_map, roleKey,
    Bool.and_eq_true, decide_eq_true_iff]
  constructor
  · rintro ⟨r, hr, h1, h2⟩
    exact ⟨r, hr, by rw [h1, h2]⟩
  · rintro ⟨r, hr, h⟩
    refine ⟨r, hr, ?_, ?_⟩
    · exact congrArg Prod.fst h
    · exact congrArg Prod.snd h

theorem roleFKok_append (parts : List ParticipantRow) (a b : List RoleRow) :
    roleFKok parts (a ++ b) = (roleFKok parts a && roleFKok parts b) :=
  List.all_append

theorem roleFKrow_of_mem {parts : List ParticipantRow} {p : ParticipantRow}
    (hp : p ∈ parts) {r : RoleRow}
    (h1 : p.id = r.participant_id) (h2 : p.report_id = r.report_id) :
    roleFKrow parts r = true := by
  simp only [roleFKrow, List.any_eq_true, Bool.and_eq_true, decide_eq_true_iff]
  exact ⟨p, hp, h1, h2⟩

theorem idsNodup_iff (ids : List Nat) : idsNodup ids = true ↔ ids.Nodup := by
  simp [idsNodup]

/-- C1: for every participant, assigning the same role value twice within the
uniqueness scope fails with IntegrityError, and assigning N distinct roles to
the same participant succeeds, appending exactly N new role-assignment rows
(one per requested role). -/
theorem role_twice_fails_distinct_roles_succeed
    (st : DBState) (p : ParticipantRow) (r : Role) (roles : List Role)
    (hp : p ∈ st.participants)
    (hPK : rolePKok st.roleAssignments = true)
    (hFK : roleFKok st.participants st.roleAssignments = true)
    (hnd : roles.Nodup)
    (hfresh : ∀ ro ∈ roles, hasRoleKey ro p.report_id st.roleAssignments = false) :
    (insertRoleAssignments st
        [RoleRow.mk r p.report_id p.id, RoleRow.mk r p.report_id p.id] =
      .error (.integrityError
        "duplicate key value violates unique constraint pk_unique_report_role_combination")) ∧
    (∃ st2, insertRoleAssignments st (roles.map fun ro => RoleRow.mk ro p.report_id p.id) =
        .ok st2 ∧
      st2.roleAssignments =
        st.roleAssignments ++ (roles.map fun ro => RoleRow.mk ro p.report_id p.id) ∧
      (roles.map fun ro => RoleRow.mk ro p.report_id p.id).length = roles.length) := by
  constructor
  · have hdup : rolePKok (st.roleAssignments ++
        [RoleRow.mk r p.report_id p.id, RoleRow.mk r p.report_id p.id]) = false := by
      rw [← Bool.not_eq_true, rolePKok_iff]
      intro h
      have h2 := (List.map_append roleKey st.roleAssignments _ ▸ h).of_append_right
      simp [roleKey] at h2
    simp [insertRoleAssignments, hdup]
  · have hnew : rolePKok (st.roleAssignments ++
        (roles.map fun ro => RoleRow.mk ro p.report_id p.id)) = true := by
      rw [rolePKok_iff, List.map_append, List.nodup_append]
      refine ⟨(rolePKok_iff _).mp hPK, ?_, ?_⟩
      · have : (roles.map fun ro => RoleRow.mk ro p.report_id p.id).map roleKey =
            roles.map fun ro => (ro, p.report_id) := by
          simp [roleKey]
        rw [this]
        exact hnd.map fun a b hab => congrArg Prod.fst hab
      · rw [List.disjoint_left]
        intro k hk1 hk2
        simp only [List.map_map, List.mem_map, Function.comp] at hk2
        obtain ⟨ro, hro, hkey⟩ := hk2
        have : hasRoleKey ro p.report_id st.roleAssignments = true := by
          rw [hasRoleKey_iff]
          simpa [roleKey, ← hkey] using hk1
        rw [hfresh ro hro] at this
        exact Bool.false_ne_true this
    have hfk : roleFKok st.participants (st.roleAssignments ++
        (roles.map fun ro => RoleRow.mk ro p.report_id p.id)) = true := by
      rw [roleFKok_append, Bool.and_eq_true]
      refine ⟨hFK, ?_⟩
      rw [roleFKok, List.all_eq_true]
      intro x hx
      simp only [List.mem_map] at hx
      obtain ⟨ro, _, rfl⟩ := hx
      exact roleFKrow_of_mem hp rfl rfl
    exact ⟨{ st with roleAssignments :=
        st.roleAssignments ++ (roles.map fun ro => RoleRow.mk ro p.report_id p.id) },
      by simp [insertRoleAssignments, hnew, hfk], rfl, roles.length_map _⟩

/-- C1 witness: a concrete participant on report 1; assigning creator twice
fails with the duplicate-key IntegrityError, while assigning the three
distinct roles succeeds and appends exactly three rows. -/
theorem role_twice_fails_distinct_roles_succeed_witness :
    (insertRoleAssignments
        (DBState.mk [] [ReportRow.mk 1 "Falcon"] [ParticipantRow.mk 1 1 false none] [] [])
        [RoleRow.mk Role.creator 1 1, RoleRow.mk Role.creator 1 1] =
      .error (.integrityError
        "duplicate key value violates unique constraint pk_unique_report_role_combination")) ∧
    (∃ st2, insertRoleAssignments
        (DBState.mk [] [ReportRow.mk 1 "Falcon"] [ParticipantRow.mk 1 1 false none] [] [])
        ([Role.creator, Role.reporter, Role.observer].map fun ro => RoleRow.mk ro 1 1) =
        .ok st2 ∧
      st2.roleAssignments =
        [] ++ ([Role.creator, Role.reporter, Role.observer].map fun ro => RoleRow.mk ro 1 1) ∧
      ([Role.creator, Role.reporter, Role.observer].map fun ro => RoleRow.mk ro 1 1).length =
        [Role.creator, Role.reporter, Role.observer].length) :=
  role_twice_fails_distinct_roles_succeed
    (DBState.mk [] [ReportRow.mk 1 "Falcon"] [ParticipantRow.mk 1 1 false none] [] [])
    (ParticipantRow.mk 1 1 false none) Role.creator
    [Role.creator, Role.reporter, Role.observer]
    (by decide) (by decide) (by decide) (by decide) (by decide)

/-- C2: for every string outside the closed set, a case-sensitive exact-match
failure: assigning the string as a role fails before any write with a
validation failure (the LookupError of the string-validating enumeration,
which the spec taxonomy classes as ValidationError) carrying the offending
raw value, and no role-assignment row is created. -/
theorem invalid_role_string_rejected
    (st : DBState) (s : String) (rid pid : Nat)
    (h1 : s ≠ "creator") (h2 : s ≠ "reporter") (h3 : s ≠ "observer") :
    insertRoleFromString st s rid pid =
      .error (.lookupError (s ++ " is not among the defined enum values")) ∧
    errClass (.lookupError (s ++ " is not among the defined enum values")) =
      ErrClass.validation ∧
    applyTx st (insertRoleFromString st s rid pid) = st := by
  have hnone : roleFromString s = none := by
    simp [roleFromString, h1, h2, h3]
  refine ⟨?_, rfl, ?_⟩
  · simp [insertRoleFromString, bindRoleString, hnone]
  · simp [insertRoleFromString, bindRoleString, hnone, applyTx]

/-- C2 witness: the capitalized string misses the case-sensitive match and is
rejected with the raw value in the message, leaving the state unchanged. -/
theorem invalid_role_string_rejected_witness :
    insertRoleFromString (DBState.mk [] [] [] [] []) "Creator" 1 1 =
      .error (.lookupError ("Creator" ++ " is not among the defined enum values")) ∧
    errClass (.lookupError ("Creator" ++ " is not among the defined enum values")) =
      ErrClass.validation ∧
    applyTx (DBState.mk [] [] [] [] [])
      (insertRoleFromString (DBState.mk [] [] [] [] []) "Creator" 1 1) =
      DBState.mk [] [] [] [] [] :=
  invalid_role_string_rejected (DBState.mk [] [] [] [] []) "Creator" 1 1
    (by decide) (by decide) (by decide)

/-- C3 counterexample: a participant object whose report reference is set to 1
with one role attached; reassigning it to 2 raises AttributeError, which the
spec taxonomy classes as a programming error, not as an IntegrityError as the
claim states. -/
theorem report_id_reassignment_not_integrity :
    setReportId (ParticipantObj.mk (some 1) [Role.creator]) 2 =
      .error (.attributeError
        "The report_id associated with a participant cannot be changed once set.") ∧
    errClass (.attributeError
        "The report_id associated with a participant cannot be changed once set.") ≠
      ErrClass.integrity :=
  ⟨rfl, by decide⟩

/-- C3 amended: once a participant object's report reference is set, any
subsequent attempt to change it fails by raising AttributeError — a
programming error in the taxonomy, not an IntegrityError — regardless of how
many roles are attached, and the report reference stays unchanged. -/
theorem report_id_immutable (x : Nat) (roles : List Role) (v : Nat) :
    setReportId (ParticipantObj.mk (some x) roles) v =
      .error (.attributeError
        "The report_id associated with a participant cannot be changed once set.") ∧
    errClass (.attributeError
        "The report_id associated with a participant cannot be changed once set.") =
      ErrClass.programming ∧
    (applySet (ParticipantObj.mk (some x) roles)
        (setReportId (ParticipantObj.mk (some x) roles) v)).reportIdAttr = some x :=
  ⟨rfl, rfl, rfl⟩

/-- C10: in every state satisfying the composite foreign key
`fk_report_participant_composite_reference` and the participant primary key,
each role-assignment row's redundant report reference agrees with its owning
participant: any participant row carrying the row's participant_id has
exactly the row's report_id. -/
theorem role_report_reference_agrees
    (st : DBState)
    (hFK : roleFKok st.participants st.roleAssignments = true)
    (hPK : idsNodup (st.participants.map (·.id)) = true) :
    ∀ r ∈ st.roleAssignments, ∀ p ∈ st.participants, p.id = r.participant_id →
      p.report_id = r.report_id := by
  intro r hr p hp hid
  rw [roleFKok, List.all_eq_true] at hFK
  have hrow := hFK r hr
  rw [roleFKrow, List.any_eq_true] at hrow
  obtain ⟨q, hq, hmatch⟩ := hrow
  simp only [Bool.and_eq_true, decide_eq_true_iff] at hmatch
  have hinj := List.inj_on_of_nodup_map ((idsNodup_iff _).mp hPK)
  have hpq : p = q := hinj hp hq (by rw [hid, hmatch.1])
  rw [hpq, hmatch.2]

/-- C10 witness: one participant row on report 5 and one role-assignment row
referencing it; their report references agree. -/
theorem role_report_reference_agrees_witness :
    (ParticipantRow.mk 1 5 false none).report_id =
      (RoleRow.mk Role.creator 5 1).report_id :=
  role_report_reference_agrees
    (DBState.mk [] [] [ParticipantRow.mk 1 5 false none] [] [RoleRow.mk Role.creator 5 1])
    (by decide) (by decide)
    (RoleRow.mk Role.creator 5 1) (by decide)
    (ParticipantRow.mk 1 5 false none) (by decide) rfl

/-- C8 counterexample: with report 1 present, creating a Registered identity
without ever assigning a user reference succeeds — the validator never fires,
the nullable user_id column keeps NULL, and the row is created — refuting the
claim that an absent user reference always fails with a validation error and
creates no row. -/
theorem registered_absent_user_succeeds :
    createRegistered (DBState.mk [] [ReportRow.mk 1 "Falcon"] [] [] []) 1 1 none =
      .ok (DBState.mk [] [ReportRow.mk 1 "Falcon"]
        [ParticipantRow.mk 1 1 true none] [] []) ∧
    findParticipant
        (DBState.mk [] [ReportRow.mk 1 "Falcon"] [ParticipantRow.mk 1 1 true none] [] []) 1 =
      some (ParticipantRow.mk 1 1 true none) :=
  ⟨rfl, rfl⟩

/-- C8 amended: explicitly assigning a null user reference when creating a
Registered identity fails with ValueError — a validation failure — and no row
is created; but when the user reference is merely absent (never assigned) the
validator does not fire and the creation proceeds to commit a row whose
user_id column is NULL, the column being nullable for the single-table
inheritance layout. -/
theorem registered_null_user_rejected (st : DBState) (pid rid : Nat) :
    createRegistered st pid rid (some none) =
      .error (.valueError "User ID cannot be None") ∧
    errClass (.valueError "User ID cannot be None") = ErrClass.validation ∧
    applyTx st (createRegistered st pid rid (some none)) = st ∧
    createRegistered st pid rid none =
      insertParticipantRow st (ParticipantRow.mk pid rid true none) :=
  ⟨rfl, rfl, rfl, rfl⟩

/-- C4: deleting a report removes the report, all of its participants and all
of their role assignments — subsequent lookup of the report id, of any of its
participants' ids, or of any role assignment keyed to the report returns
none — and deleting a report with no participants raises no error (the
operation is total) and touches nothing but the report table. -/
theorem delete_report_cascades
    (st : DBState) (rid : Nat)
    (hpid : idsNodup (st.participants.map (·.id)) = true)
    (hFK : roleFKok st.participants st.roleAssignments = true) :
    (findReport (delete_report st rid) rid = none) ∧
    (∀ p ∈ st.participants, p.report_id = rid →
      findParticipant (delete_report st rid) p.id = none) ∧
    (∀ ro : Role, findRoleAssignment (delete_report st rid) ro rid = none) ∧
    ((∀ p ∈ st.participants, p.report_id ≠ rid) →
      delete_report st rid =
        { st with reports := st.reports.filter fun rp => !decide (rp.id = rid) }) := by
  refine ⟨?_, ?_, ?_, ?_⟩
  · rw [findReport, List.find?_eq_none]
    intro x hx
    simp only [delete_report, List.mem_filter, Bool.not_eq_true',
      decide_eq_false_iff_not] at hx
    simp [hx.2]
  · intro p hp hrep
    rw [findParticipant, List.find?_eq_none]
    intro q hq hpq
    simp only [delete_report, List.mem_filter, Bool.not_eq_true',
      decide_eq_false_iff_not] at hq
    rw [decide_eq_true_iff] at hpq
    have hinj := List.inj_on_of_nodup_map ((idsNodup_iff _).mp hpid)
    have hqp : q = p := hinj hq.1 hp hpq
    exact hq.2 (by rw [hqp, hrep])
  · intro ro
    rw [findRoleAssignment, List.find?_eq_none]
    intro r hr hkey
    simp only [Bool.and_eq_true, decide_eq_true_iff] at hkey
    simp only [delete_report, List.mem_filter] at hr
    obtain ⟨hrmem, hpred⟩ := hr
    rw [roleFKok, List.all_eq_true] at hFK
    have hrow := hFK r hrmem
    rw [roleFKrow, List.any_eq_true] at hrow
    obtain ⟨q, hq, hm⟩ := hrow
    simp only [Bool.and_eq_true, decide_eq_true_iff] at hm
    rw [Bool.not_eq_true', List.any_eq_false] at hpred
    have hq2 := hpred q hq
    simp only [Bool.and_eq_true, decide_eq_true_iff, not_and] at hq2
    exact hq2 ⟨by rw [hm.2, hkey.2], hm.1⟩ hm.2
  · intro hno
    simp only [delete_report]
    congr 1
    · rw [List.filter_eq_self]
      intro p hp
      simp [hno p hp]
    · rw [List.filter_eq_self]
      intro u _
      rw [Bool.not_eq_true', List.any_eq_false]
      intro p hp
      simp [hno p hp]
    · rw [List.filter_eq_self]
      intro r _
      rw [Bool.not_eq_true', List.any_eq_false]
      intro p hp
      simp [hno p hp]

/-- C4 witness: report 1 with one participant holding one role; after the
delete all three lookups return none; and deleting report 2, which has no
participants, only drops report rows with id 2. -/
theorem delete_report_cascades_witness :
    (findReport (delete_report
        (DBState.mk [] [ReportRow.mk 1 "Falcon"] [ParticipantRow.mk 1 1 false none]
          [UnregisteredRow.mk 1 "Jane Doe"] [RoleRow.mk Role.creator 1 1]) 1) 1 = none) ∧
    (findParticipant (delete_report
        (DBState.mk [] [ReportRow.mk 1 "Falcon"] [ParticipantRow.mk 1 1 false none]
          [UnregisteredRow.mk 1 "Jane Doe"] [RoleRow.mk Role.creator 1 1]) 1) 1 = none) ∧
    (findRoleAssignment (delete_report
        (DBState.mk [] [ReportRow.mk 1 "Falcon"] [ParticipantRow.mk 1 1 false none]
          [UnregisteredRow.mk 1 "Jane Doe"] [RoleRow.mk Role.creator 1 1]) 1)
      Role.creator 1 = none) := by
  have h := delete_report_cascades
    (DBState.mk [] [ReportRow.mk 1 "Falcon"] [ParticipantRow.mk 1 1 false none]
      [UnregisteredRow.mk 1 "Jane Doe"] [RoleRow.mk Role.creator 1 1]) 1
    (by decide) (by decide)
  exact ⟨h.1, h.2.1 (ParticipantRow.mk 1 1 false none) (by decide) rfl, h.2.2.1 Role.creator⟩

/-- C5: the multi-row participant creation is transactional: any failing call
leaves the caller's state exactly as before (rollback in full), and when the
requested role list contains a duplicate the call fails with IntegrityError
and zero rows of the attempted creation — neither the participant row nor any
role-assignment row — are persisted. -/
theorem create_participant_atomic
    (st : DBState) (p : ParticipantRow) (roles : List Role)
    (hdup : ¬ roles.Nodup) :
    (∀ e, create_participant st p roles = .error e →
      applyTx st (create_participant st p roles) = st) ∧
    (∃ msg, create_participant st p roles = .error (.integrityError msg)) ∧
    (applyTx st (create_participant st p roles)).participants = st.participants ∧
    (applyTx st (create_participant st p roles)).roleAssignments = st.roleAssignments := by
  have hrows : rolePKok (st.roleAssignments ++
      roles.map fun r => RoleRow.mk r p.report_id p.id) = false := by
    rw [← Bool.not_eq_true, rolePKok_iff]
    intro h
    apply hdup
    have h2 := (List.map_append roleKey _ _ ▸ h).of_append_right
    rw [List.map_map] at h2
    exact h2.of_map _
  have hres : ∃ msg, create_participant st p roles = .error (.integrityError msg) := by
    simp only [create_participant]
    split_ifs with h1 h2 h3 h4 h5
    · exact ⟨_, rfl⟩
    · exact ⟨_, rfl⟩
    · exact ⟨_, rfl⟩
    · exact ⟨_, rfl⟩
    · exact ⟨_, rfl⟩
    · rw [hrows] at h4
      simp at h4
  obtain ⟨msg, hmsg⟩ := hres
  refine ⟨fun e _ => by simp [applyTx, hmsg], ⟨msg, hmsg⟩, ?_, ?_⟩ <;>
    simp [applyTx, hmsg]

/-- C5 witness: with report 1 present, creating a fresh participant with the
duplicated role list fails with IntegrityError and persists neither the
participant row nor any role row. -/
theorem create_participant_atomic_witness :
    (∀ e, create_participant (DBState.mk [] [ReportRow.mk 1 "Falcon"] [] [] [])
        (ParticipantRow.mk 1 1 false none) [Role.creator, Role.creator] = .error e →
      applyTx (DBState.mk [] [ReportRow.mk 1 "Falcon"] [] [] [])
        (create_participant (DBState.mk [] [ReportRow.mk 1 "Falcon"] [] [] [])
          (ParticipantRow.mk 1 1 false none) [Role.creator, Role.creator]) =
        DBState.mk [] [ReportRow.mk 1 "Falcon"] [] [] []) ∧
    (∃ msg, create_participant (DBState.mk [] [ReportRow.mk 1 "Falcon"] [] [] [])
        (ParticipantRow.mk 1 1 false none) [Role.creator, Role.creator] =
      .error (.integrityError msg)) ∧
    (applyTx (DBState.mk [] [ReportRow.mk 1 "Falcon"] [] [] [])
        (create_participant (DBState.mk [] [ReportRow.mk 1 "Falcon"] [] [] [])
          (ParticipantRow.mk 1 1 false none) [Role.creator, Role.creator])).participants =
      (DBState.mk [] [ReportRow.mk 1 "Falcon"] [] [] []).participants ∧
    (applyTx (DBState.mk [] [ReportRow.mk 1 "Falcon"] [] [] [])
        (create_participant (DBState.mk [] [ReportRow.mk 1 "Falcon"] [] [] [])
          (ParticipantRow.mk 1 1 false none) [Role.creator, Role.creator])).roleAssignments =
      (DBState.mk [] [ReportRow.mk 1 "Falcon"] [] [] []).roleAssignments :=
  create_participant_atomic (DBState.mk [] [ReportRow.mk 1 "Falcon"] [] [] [])
    (ParticipantRow.mk 1 1 false none) [Role.creator, Role.creator] (by decide)

/-- Renaming a user is visible to every later `find?` by that user's id: the
found row carries the new name. -/
theorem find?_updateUserName (users : List UserRow) (uid : Nat) (n : String)
    (u0 : UserRow) (h : users.find? (fun u => decide (u.id = uid)) = some u0) :
    (updateUserName users uid n).find? (fun u => decide (u.id = uid)) =
      some (UserRow.mk u0.id n) := by
  induction users with
  | nil => simp at h
  | cons u rest ih =>
    by_cases hu : u.id = uid
    · rw [List.find?_cons_of_pos _ (by simp [hu])] at h
      have hu0 : u0 = u := by
        cases h
        rfl
      simp only [updateUserName, List.map_cons, if_pos hu]
      rw [List.find?_cons_of_pos _ (by simp [hu])]
      rw [hu0, hu]
    · rw [List.find?_cons_of_neg _ (by simp [hu])] at h
      simp only [updateUserName, List.map_cons, if_neg hu]
      rw [List.find?_cons_of_neg _ (by simp [hu])]
      exact ih h

/-- C7: a Registered identity's display name is computed by looking up the
referenced User row at read time, so it equals that user's current name and
reflects a later rename; an Unregistered identity's name is the column stored
on its own row, which no user update touches. -/
theorem registered_name_follows_user
    (users : List UserRow) (p : ParticipantRow) (uid : Nat) (u0 : UserRow)
    (newName : String) (row : UnregisteredRow)
    (huid : p.user_id = some uid)
    (hfind : users.find? (fun u => decide (u.id = uid)) = some u0) :
    registeredName users p = some u0.name ∧
    registeredName (updateUserName users uid newName) p = some newName ∧
    unregisteredName row = row.name := by
  refine ⟨?_, ?_, rfl⟩
  · rw [registeredName, huid]
    show (users.find? fun u => decide (u.id = uid)).map (·.name) = some u0.name
    rw [hfind]
    rfl
  · rw [registeredName, huid]
    show ((updateUserName users uid newName).find? fun u => decide (u.id = uid)).map
      (·.name) = some newName
    rw [find?_updateUserName users uid newName u0 hfind]
    rfl

/-- C7 witness: Alice (user 1) backs the registered participant 1; the display
name reads Alice, and after renaming the user it reads Alicia; the
unregistered row keeps its stored name. -/
theorem registered_name_follows_user_witness :
    registeredName [UserRow.mk 1 "Alice"] (ParticipantRow.mk 1 1 true (some 1)) =
      some (UserRow.mk 1 "Alice").name ∧
    registeredName (updateUserName [UserRow.mk 1 "Alice"] 1 "Alicia")
      (ParticipantRow.mk 1 1 true (some 1)) = some "Alicia" ∧
    unregisteredName (UnregisteredRow.mk 2 "Jane Doe") =
      (UnregisteredRow.mk 2 "Jane Doe").name :=
  registered_name_follows_user [UserRow.mk 1 "Alice"]
    (ParticipantRow.mk 1 1 true (some 1)) 1 (UserRow.mk 1 "Alice") "Alicia"
    (UnregisteredRow.mk 2 "Jane Doe") rfl (by decide)

/-- C9: the declared primary key scopes role uniqueness to (report, role): in
any state satisfying it, two role-assignment rows with the same role and the
same report are one row, so two distinct participants on one report can never
both hold the same role; with the composite foreign key and the participant
primary key this implies per-participant uniqueness; and it is strictly
stronger, since a concrete table satisfies per-participant uniqueness while
violating the (report, role) key. -/
theorem role_uniqueness_scoped_to_report
    (st : DBState)
    (hPK : rolePKok st.roleAssignments = true)
    (hFK : roleFKok st.participants st.roleAssignments = true)
    (hpid : idsNodup (st.participants.map (·.id)) = true) :
    (∀ r1 ∈ st.roleAssignments, ∀ r2 ∈ st.roleAssignments,
      r1.role = r2.role → r1.report_id = r2.report_id → r1 = r2) ∧
    perParticipantUnique st.roleAssignments = true ∧
    (perParticipantUnique
        [RoleRow.mk Role.creator 1 1, RoleRow.mk Role.creator 1 2] = true ∧
      rolePKok [RoleRow.mk Role.creator 1 1, RoleRow.mk Role.creator 1 2] = false) := by
  have hinjKey := List.inj_on_of_nodup_map ((rolePKok_iff _).mp hPK)
  have hinjId := List.inj_on_of_nodup_map ((idsNodup_iff _).mp hpid)
  have hsamePart : ∀ r1 ∈ st.roleAssignments, ∀ r2 ∈ st.roleAssignments,
      r1.participant_id = r2.participant_id → r1.report_id = r2.report_id := by
    intro r1 h1 r2 h2 hpart
    rw [roleFKok, List.all_eq_true] at hFK
    have hrow1 := hFK r1 h1
    have hrow2 := hFK r2 h2
    rw [roleFKrow, List.any_eq_true] at hrow1 hrow2
    obtain ⟨q1, hq1, hm1⟩ := hrow1
    obtain ⟨q2, hq2, hm2⟩ := hrow2
    simp only [Bool.and_eq_true, decide_eq_true_iff] at hm1 hm2
    have hq : q1 = q2 := hinjId hq1 hq2 (by rw [hm1.1, hm2.1, hpart])
    rw [← hm1.2, ← hm2.2, hq]
  refine ⟨?_, ?_, by decide, by decide⟩
  · intro r1 h1 r2 h2 hrole hrep
    exact hinjKey h1 h2 (by rw [roleKey, roleKey, hrole, hrep])
  · rw [perParticipantUnique, decide_eq_true_iff, List.Nodup, List.pairwise_map]
    have hpk2 : List.Pairwise (fun a b => roleKey a ≠ roleKey b) st.roleAssignments := by
      have := (rolePKok_iff _).mp hPK
      rw [List.Nodup, List.pairwise_map] at this
      exact this
    refine hpk2.imp_of_mem ?_
    intro a b ha hb hkey heq
    apply hkey
    have hrole : a.role = b.role := congrArg Prod.fst heq
    have hpart : a.participant_id = b.participant_id := congrArg Prod.snd heq
    rw [roleKey, roleKey, hrole, hsamePart a ha b hb hpart]

/-- C9 witness: a single-row role table on report 5 satisfies the hypotheses;
per-participant uniqueness holds of it. -/
theorem role_uniqueness_scoped_to_report_witness :
    perParticipantUnique
      (DBState.mk [] [] [ParticipantRow.mk 1 5 false none] []
        [RoleRow.mk Role.creator 5 1]).roleAssignments = true :=
  (role_uniqueness_scoped_to_report
    (DBState.mk [] [] [ParticipantRow.mk 1 5 false none] []
      [RoleRow.mk Role.creator 5 1])
    (by decide) (by decide) (by decide)).2.1

/-- Successful commit of one participant row: when the surrogate primary key,
the report foreign key and the user foreign key all hold of the extended
table, the row is appended. -/
theorem insertParticipantRow_ok
    (st : DBState) (p : ParticipantRow)
    (h1 : idsNodup ((st.participants ++ [p]).map (·.id)) = true)
    (h2 : participantFKok st.reports (st.participants ++ [p]) = true)
    (h3 : userFKok st.users (st.participants ++ [p]) = true) :
    insertParticipantRow st p = .ok { st with participants := st.participants ++ [p] } := by
  simp only [insertParticipantRow, h1, h2, h3, Bool.not_true]
  rfl

/-- C6: creating two participants on two different reports that share one
registered identity — both rows reference the same User — succeeds for both,
as test_two_reports_for_registered pins; the same scenario with an
unregistered identity is the pinned expected failure (the xfail of
test_two_reports_for_unregistered): an unregistered identity is itself a
participant row whose report reference is already set, so linking it to a
second report reassigns report_id, which raises AttributeError. -/
theorem shared_identity_two_reports
    (st : DBState) (r1 r2 : ReportRow) (u : UserRow) (pid1 pid2 : Nat)
    (x rid2 : Nat) (roles : List Role)
    (hr1 : r1 ∈ st.reports) (hr2 : r2 ∈ st.reports) (hu : u ∈ st.users)
    (hFKst : participantFKok st.reports st.participants = true)
    (hUst : userFKok st.users st.participants = true)
    (hpid : idsNodup (st.participants.map (·.id) ++ [pid1, pid2]) = true) :
    (∃ st2, Except.bind
        (insertParticipantRow st (ParticipantRow.mk pid1 r1.id true (some u.id)))
        (fun st1 => insertParticipantRow st1 (ParticipantRow.mk pid2 r2.id true (some u.id))) =
          .ok st2 ∧
      ParticipantRow.mk pid1 r1.id true (some u.id) ∈ st2.participants ∧
      ParticipantRow.mk pid2 r2.id true (some u.id) ∈ st2.participants) ∧
    (∃ msg, setReportId (ParticipantObj.mk (some x) roles) rid2 =
      .error (.attributeError msg)) := by
  refine ⟨?_, ⟨_, rfl⟩⟩
  have hnodup := (idsNodup_iff _).mp hpid
  have h1a : idsNodup ((st.participants ++
      [ParticipantRow.mk pid1 r1.id true (some u.id)]).map (·.id)) = true := by
    rw [idsNodup_iff, List.map_append]
    exact List.Nodup.sublist
      ((List.Sublist.cons₂ pid1 (List.nil_sublist [pid2])).append_left _) hnodup
  have hfk1 : participantFKok st.reports (st.participants ++
      [ParticipantRow.mk pid1 r1.id true (some u.id)]) = true := by
    rw [participantFKok, List.all_append, Bool.and_eq_true]
    refine ⟨hFKst, ?_⟩
    simp only [List.all_cons, List.all_nil, Bool.and_true]
    rw [List.any_eq_true]
    exact ⟨r1, hr1, by simp⟩
  have huser1 : userFKok st.users (st.participants ++
      [ParticipantRow.mk pid1 r1.id true (some u.id)]) = true := by
    rw [userFKok, List.all_append, Bool.and_eq_true]
    refine ⟨hUst, ?_⟩
    simp only [List.all_cons, List.all_nil, Bool.and_true]
    rw [List.any_eq_true]
    exact ⟨u, hu, by simp⟩
  have h1b : idsNodup (((st.participants ++
      [ParticipantRow.mk pid1 r1.id true (some u.id)]) ++
      [ParticipantRow.mk pid2 r2.id true (some u.id)]).map (·.id)) = true := by
    rw [idsNodup_iff, List.map_append, List.map_append, List.append_assoc]
    exact hnodup
  have hfk2 : participantFKok st.reports ((st.participants ++
      [ParticipantRow.mk pid1 r1.id true (some u.id)]) ++
      [ParticipantRow.mk pid2 r2.id true (some u.id)]) = true := by
    rw [participantFKok, List.all_append, Bool.and_eq_true]
    refine ⟨hfk1, ?_⟩
    simp only [List.all_cons, List.all_nil, Bool.and_true]
    rw [List.any_eq_true]
    exact ⟨r2, hr2, by simp⟩
  have huser2 : userFKok st.users ((st.participants ++
      [ParticipantRow.mk pid1 r1.id true (some u.id)]) ++
      [ParticipantRow.mk pid2 r2.id true (some u.id)]) = true := by
    rw [userFKok, List.all_append, Bool.and_eq_true]
    refine ⟨huser1, ?_⟩
    simp only [List.all_cons, List.all_nil, Bool.and_true]
    rw [List.any_eq_true]
    exact ⟨u, hu, by simp⟩
  have hstep1 := insertParticipantRow_ok st
    (ParticipantRow.mk pid1 r1.id true (some u.id)) h1a hfk1 huser1
  have hstep2 := insertParticipantRow_ok
    { st with participants := st.participants ++
        [ParticipantRow.mk pid1 r1.id true (some u.id)] }
    (ParticipantRow.mk pid2 r2.id true (some u.id)) h1b hfk2 huser2
  refine ⟨{ st with participants := (st.participants ++
      [ParticipantRow.mk pid1 r1.id true (some u.id)]) ++
      [ParticipantRow.mk pid2 r2.id true (some u.id)] }, ?_, ?_, ?_⟩
  · rw [hstep1]
    show insertParticipantRow _ _ = _
    exact hstep2
  · simp
  · simp

/-- C6 witness: Alice backs registered participants 1 and 2 on reports 1 and
2; both inserts commit and both rows are present; one concrete unregistered
identity object whose report reference is already 1 raises on being linked to
report 2. -/
theorem shared_identity_two_reports_witness :
    (∃ st2, Except.bind
        (insertParticipantRow
          (DBState.mk [UserRow.mk 1 "Alice"]
            [ReportRow.mk 1 "Falcon", ReportRow.mk 2 "Eagle"] [] [] [])
          (ParticipantRow.mk 1 (ReportRow.mk 1 "Falcon").id true (some (UserRow.mk 1 "Alice").id)))
        (fun st1 => insertParticipantRow st1
          (ParticipantRow.mk 2 (ReportRow.mk 2 "Eagle").id true (some (UserRow.mk 1 "Alice").id))) =
          .ok st2 ∧
      ParticipantRow.mk 1 (ReportRow.mk 1 "Falcon").id true
        (some (UserRow.mk 1 "Alice").id) ∈ st2.participants ∧
      ParticipantRow.mk 2 (ReportRow.mk 2 "Eagle").id true
        (some (UserRow.mk 1 "Alice").id) ∈ st2.participants) ∧
    (∃ msg, setReportId (ParticipantObj.mk (some 1) [Role.creator]) 2 =
      .error (.attributeError msg)) :=
  shared_identity_two_reports
    (DBState.mk [UserRow.mk 1 "Alice"]
      [ReportRow.mk 1 "Falcon", ReportRow.mk 2 "Eagle"] [] [] [])
    (ReportRow.mk 1 "Falcon") (ReportRow.mk 2 "Eagle") (UserRow.mk 1 "Alice")
    1 2 1 2 [Role.creator]
    (by decide) (by decide) (by decide) (by decide) (by decide) (by decide)
